import Mathlib

/-!
Verification development for the declarative web-scraping orchestration layer
(rule registry, matcher/grouper, pagination loop, storage dispatcher).

The repository ships only the test suite and an example; the orchestration
core (the `dude` package: `Scraper`, its `select`/`group`/`save` decorators,
`run`, and the storage dispatch) is not part of the sources at hand, so the
definitions below are modelled from the specification document, with the
repository's tests fixing behaviour where the specification is silent.
-/

namespace Dude

/-- A scraped value: handler outputs and provenance stamps are strings or
integers (the only value shapes the tests exercise). -/
inductive Value where
  | vStr (s : String)
  | vInt (i : Int)
deriving DecidableEq

/-- A record is a flat mapping of string keys to values, modelled as an
association list in emission order. -/
abbrev Record := List (String × Value)

/-- Looks a key up in a record (first occurrence wins, so the provenance
entries placed at the front take precedence over user entries). -/
def lookupKey (rec : Record) (key : String) : Option Value :=
  (rec.find? (fun kv => kv.1 == key)).map (fun kv => kv.2)

/-- Modelled from the spec: an element handle produced by the parser
adapter's query capability. `groupKey` is the adapter-resolved group key
(e.g. the identity of a common ancestor); `text` stands for the element's
content exposed to handlers via `text_content`. -/
structure Element where
  groupKey : Nat
  text : String
deriving DecidableEq

/-- Modelled from the spec: a registered rule
`{selector, handler, group, priority, url_pattern}`. The handler returns a
flat mapping; returning the empty mapping models a falsy result (the record
is skipped). `isAsync` records whether the handler is an asynchronous
function, feeding the registry's `has_async` flag. -/
structure Rule where
  selector : String
  group : Option String
  priority : Int
  url_pattern : Option String
  isAsync : Bool
  handler : Element → List (String × Value)

/-- The five reserved provenance keys every record carries. -/
def reservedKeys : List String :=
  ["_page_number", "_page_url", "_group_id", "_group_index", "_element_index"]

/-- Modelled from the spec: assembles one record by merging the handler's
returned mapping with the provenance keys; on a key collision the reserved
key wins (the collision policy the spec's design notes choose). -/
def mkRecord (pageNumber : Nat) (pageUrl : String) (gid gidx eidx : Nat)
    (user : List (String × Value)) : Record :=
  [("_page_number", Value.vInt (pageNumber : Int)),
   ("_page_url", Value.vStr pageUrl),
   ("_group_id", Value.vInt (gid : Int)),
   ("_group_index", Value.vInt (gidx : Int)),
   ("_element_index", Value.vInt (eidx : Int))]
  ++ user.filter (fun kv => !(reservedKeys.contains kv.1))

/-- Pairs each element with its 0-based document-order index. -/
def indexed : Nat → List Element → List (Nat × Element)
  | _, [] => []
  | i, e :: es => (i, e) :: indexed (i + 1) es

/-- Distinct keys of a list not already seen, in first-appearance order. -/
def dedupAux (seen : List Nat) : List Nat → List Nat
  | [] => []
  | k :: ks => if seen.contains k then dedupAux seen ks else k :: dedupAux (k :: seen) ks

/-- First-appearance-ordered distinct keys of a list. -/
def dedupKeys (l : List Nat) : List Nat := dedupAux [] l

/-- Modelled from the spec: buckets the matched elements by the
adapter-resolved group key, buckets ordered by first appearance, elements
within a bucket kept in document order. -/
def bucketize (xs : List (Nat × Element)) : List (Nat × List (Nat × Element)) :=
  (dedupKeys (xs.map (fun x => x.2.groupKey))).map
    (fun k => (k, xs.filter (fun x => x.2.groupKey == k)))

/-- Modelled from the spec: emits the records of one bucket. Group indices
are assigned to elements in document order before the handler is invoked;
a falsy (empty) handler result skips the record but still consumes its
group index. -/
def bucketRecords (h : Element → List (String × Value)) (n : Nat) (url : String)
    (gid : Nat) : Nat → List (Nat × Element) → List Record
  | _, [] => []
  | gidx, x :: xs =>
      (match h x.2 with
       | [] => []
       | u => [mkRecord n url gid gidx x.1 u])
      ++ bucketRecords h n url gid (gidx + 1) xs

/-- Modelled from the spec: emits the buckets' records in bucket order,
assigning a monotonically increasing group id per distinct bucket. -/
def recordsOfBuckets (h : Element → List (String × Value)) (n : Nat)
    (url : String) : Nat → List (Nat × List (Nat × Element)) → List Record
  | _, [] => []
  | gid, b :: bs =>
      bucketRecords h n url gid 0 b.2 ++ recordsOfBuckets h n url (gid + 1) bs

/-- Modelled from the spec: applies one rule to the elements its selector
matched (in document order). A grouped rule buckets elements by the
adapter-resolved group key; an ungrouped rule puts all its matches in one
implicit bucket. Returns the emitted records and the number of group ids
consumed, so ids keep increasing across the rules of one page. -/
def extractRule (gid0 n : Nat) (url : String) (r : Rule) (elems : List Element) :
    List Record × Nat :=
  let matched := indexed 0 elems
  let bs : List (Nat × List (Nat × Element)) :=
    match r.group with
    | some _ => bucketize matched
    | none =>
        match matched with
        | [] => []
        | ms => [(0, ms)]
  (recordsOfBuckets r.handler n url gid0 bs, bs.length)

/-- Modelled from the spec: evaluates the rules in order against one page,
threading the page-level group-id counter. -/
def extractRules : List Rule → Nat → Nat → String → (String → List Element) → List Record
  | [], _, _, _, _ => []
  | r :: rs, gid0, n, url, q =>
      (extractRule gid0 n url r (q r.selector)).1
      ++ extractRules rs (gid0 + (extractRule gid0 n url r (q r.selector)).2) n url q

/-- Modelled from the spec: whether a rule's `url_pattern` lets it apply to
a page URL (no pattern means it always applies; the spec leaves the match
semantics open, modelled as exact match). -/
def urlMatches (pat : Option String) (url : String) : Bool :=
  match pat with
  | none => true
  | some p => p == url

/-- Stable insertion of a rule into a priority-descending ordered list; an
earlier-registered rule stays ahead of later rules of equal priority. -/
def insertByPriority (r : Rule) : List Rule → List Rule
  | [] => [r]
  | x :: xs => if r.priority ≥ x.priority then r :: x :: xs else x :: insertByPriority r xs

/-- Modelled from the spec: rules are evaluated in registration order
unless priority overrides (stable sort, higher priority first). -/
def orderRules : List Rule → List Rule
  | [] => []
  | r :: rs => insertByPriority r (orderRules rs)

/-- Modelled from the spec: a page handle exposed by the parser adapter —
its URL, its query capability (selector to matched elements in document
order), and the next page when the adapter reports next-page capability. -/
inductive PageHandle where
  | mk (url : String) (query : String → List Element) (next : Option PageHandle)

/-- The page's URL. -/
def PageHandle.url : PageHandle → String
  | .mk u _ _ => u

/-- The page's element-query capability. -/
def PageHandle.query : PageHandle → String → List Element
  | .mk _ q _ => q

/-- The next page, or `none` when the adapter reports no next-page
capability. -/
def PageHandle.next : PageHandle → Option PageHandle
  | .mk _ _ nx => nx

/-- Modelled from the spec: the matcher/grouper run on one page — the
applicable rules (url-pattern filtered, priority ordered) are evaluated
left to right with the page-level group-id counter starting at 0. -/
def extractPage (rules : List Rule) (n : Nat) (p : PageHandle) : List Record :=
  extractRules (orderRules (rules.filter (fun r => urlMatches r.url_pattern p.url)))
    0 n p.url p.query

/-- Modelled from the spec: the result of the parser adapter's
fetch/navigation for a URL — a page handle, or a raised fetch exception
(HTTP error, blocked resource, ...). -/
inductive FetchResult where
  | ok (page : PageHandle)
  | fetchError (msg : String)

/-- Modelled from the spec: the pagination loop for one URL — for page
numbers `n`, `n+1`, ... up to the configured limit, run the matcher/grouper
and follow the adapter's next page, stopping early when the adapter reports
no next-page capability. -/
def crawlPages (rules : List Rule) : Nat → Nat → PageHandle → List Record
  | 0, _, _ => []
  | k + 1, n, p =>
      extractPage rules n p ++
        match p.next with
        | none => []
        | some q => crawlPages rules k (n + 1) q

/-- Modelled from the spec: crawling one URL. A fetch exception during
navigation is caught and treated as zero records for that page; the crawl
goes on. -/
def crawlUrl (rules : List Rule) (pages : Nat) (navigate : String → FetchResult)
    (url : String) : List Record :=
  match navigate url with
  | .fetchError _ => []
  | .ok p => crawlPages rules pages 1 p

/-- Modelled from the spec: the full crawl — every URL in order, records
accumulated across URLs and pages. -/
def crawlAll (rules : List Rule) (urls : List String) (pages : Nat)
    (navigate : String → FetchResult) : List Record :=
  match urls with
  | [] => []
  | u :: us => crawlUrl rules pages navigate u ++ crawlAll rules us pages navigate

/-- Modelled from the spec: a registered save function — a sink
`(records, output) → success flag`. -/
abbrev SaveFn := List Record → Option String → Bool

/-- Modelled from the spec: the error taxonomy surfaced by the orchestration
layer — ConfigurationError at registration time, a KeyError-style lookup
failure for an unregistered format, and the RuntimeError-class save failure. -/
inductive ScraperError where
  | configurationError
  | keyError (format : String)
  | saveError
deriving DecidableEq

/-- Modelled from the spec: the scraper application — the rule registry and
the format-to-save-function registry. -/
structure Scraper where
  rules : List Rule
  saveFns : List (String × SaveFn)

/-- Modelled from the spec: `has_async` is true when any registered handler
is an asynchronous function. -/
def Scraper.has_async (s : Scraper) : Bool :=
  s.rules.any (fun r => r.isAsync)

/-- Modelled from the spec: `register(selector, handler, group, priority,
url_pattern)` appends one rule to the registry, with no deduplication. -/
def register (s : Scraper) (r : Rule) : Scraper :=
  { s with rules := s.rules ++ [r] }

/-- Modelled from the spec: the state of a handler in the decorator
pipeline — a plain function, or one already registered by `select`. -/
inductive Decorated where
  | rawHandler (h : Element → List (String × Value))
  | selected (r : Rule)

/-- Modelled from the spec: the `select(selector, group, priority,
url_pattern)` registration decorator — registers one rule and hands the
(now select-decorated) handler back. -/
def select (s : Scraper) (selector : String) (group : Option String)
    (priority : Int) (url_pattern : Option String) (isAsync : Bool)
    (h : Element → List (String × Value)) : Scraper × Decorated :=
  let r : Rule := ⟨selector, group, priority, url_pattern, isAsync, h⟩
  (register s r, .selected r)

/-- Modelled from the spec: the group decorator. Applying it to a plain
handler records the group for a later `select`; nesting it over a handler
already registered by `select` conflicts with the prior grouping structure
and raises ConfigurationError at registration time. -/
def groupDecorate (_g : Option String) (d : Decorated) :
    Except ScraperError Decorated :=
  match d with
  | .rawHandler h => .ok (.rawHandler h)
  | .selected _ => .error .configurationError

/-- Registers a whole list of handlers through `select`. -/
def selectAll (s : Scraper) (rs : List Rule) : Scraper :=
  rs.foldl
    (fun acc r => (select acc r.selector r.group r.priority r.url_pattern r.isAsync r.handler).1)
    s

/-- Modelled from the spec: registers a save function for a format name
(decorator-registration pattern); a later registration for the same name
shadows the earlier one. -/
def Scraper.save (s : Scraper) (format : String) (f : SaveFn) : Scraper :=
  { s with saveFns := (format, f) :: s.saveFns }

/-- Resolves a save function by format name. -/
def lookupSave (fns : List (String × SaveFn)) (format : String) : Option SaveFn :=
  (fns.find? (fun kv => kv.1 == format)).map (fun kv => kv.2)

/-- The characters after the last dot of a path (the whole path when it has
no dot). -/
def lastSegment (cur : List Char) : List Char → List Char
  | [] => cur
  | c :: cs => if c = '.' then lastSegment [] cs else lastSegment (cur ++ [c]) cs

/-- The file extension of an output path (the part after the last dot). -/
def extOf (path : String) : String :=
  ⟨lastSegment [] path.toList⟩

/-- Modelled from the spec and the repository's tests: the effective format
of a run — the spec resolves the save function by format name with default
"json"; the tests fix that when an output path is given, the name is taken
from the path's file extension instead. -/
def resolveFormat (format : String) (output : Option String) : String :=
  match output with
  | none => format
  | some path => extOf path

/-- Modelled from the spec: the built-in json sink (serialization itself is
delegated to an external library and out of scope; the sink reports
success). -/
def save_json : SaveFn := fun _ _ => true

/-- Modelled from the spec: the built-in csv sink. -/
def save_csv : SaveFn := fun _ _ => true

/-- Modelled from the spec: the built-in yaml sink. -/
def save_yaml : SaveFn := fun _ _ => true

/-- A scraper with no rules and the built-in formats registered. -/
def freshScraper : Scraper :=
  ⟨[], [("json", save_json), ("csv", save_csv), ("yaml", save_yaml)]⟩

/-- The default value of `run`'s format argument. -/
def defaultFormat : String := "json"

/-- The observable outcome of a run: the invocations of the resolved save
function (arguments passed), and the error the run raises, if any. -/
structure RunResult where
  calls : List (List Record × Option String)
  error : Option ScraperError
deriving DecidableEq

/-- Modelled from the spec: `run(urls, pages, format, output)` — crawls
every URL up to the page limit, resolves the save function by the effective
format name (KeyError-style failure when unregistered, with no save
attempt), invokes it once with the accumulated records and the output path,
and raises the RuntimeError-class save failure when the sink reports a
falsy success flag. -/
def run (s : Scraper) (urls : List String) (pages : Nat) (format : String)
    (output : Option String) (navigate : String → FetchResult) : RunResult :=
  let records := crawlAll s.rules urls pages navigate
  match lookupSave s.saveFns (resolveFormat format output) with
  | none => ⟨[], some (.keyError (resolveFormat format output))⟩
  | some f =>
      if f records output then ⟨[(records, output)], none⟩
      else ⟨[(records, output)], some .saveError⟩

/-- The (`_group_id`, `_group_index`) stamps of a record list, in emission
order. -/
def pairsOf (recs : List Record) : List (Option Value × Option Value) :=
  recs.map (fun rec => (lookupKey rec "_group_id", lookupKey rec "_group_index"))

/-- The group stamps of one bucket: a fixed group id, group indices counting
up from `gidx`, one per element of the bucket. -/
def indexPairs (gid : Nat) : Nat → Nat → List (Option Value × Option Value)
  | _, 0 => []
  | gidx, sz + 1 =>
      (some (Value.vInt (gid : Int)), some (Value.vInt (gidx : Int)))
        :: indexPairs gid (gidx + 1) sz

/-- The canonical group stamps for buckets of the given sizes: group ids
increase by one per distinct bucket starting at `gid`, and the group index
restarts at 0 at each new bucket. -/
def canonicalPairs : Nat → List Nat → List (Option Value × Option Value)
  | _, [] => []
  | gid, sz :: sizes => indexPairs gid 0 sz ++ canonicalPairs (gid + 1) sizes

/-! Concrete fixtures mirroring the test suite's page (three titled
elements, two of them sharing a group ancestor, no next page). -/

/-- Fixture: a handler returning the element text under the key `title`. -/
def wHandler : Element → List (String × Value) :=
  fun e => [("title", Value.vStr e.text)]

/-- Fixture: a grouped rule over selector `.t`. -/
def wRule : Rule := ⟨".t", some "g", 0, none, false, wHandler⟩

/-- Fixture: a page with three matching elements in two group buckets and no
next page. -/
def wPage : PageHandle :=
  .mk "https://dude.ron.sh"
    (fun s =>
      if s == ".t" then [⟨5, "Title 1"⟩, ⟨5, "Title 2"⟩, ⟨9, "Title 3"⟩] else [])
    none

/-- Fixture: an adapter that always resolves to the test page. -/
def wNav : String → FetchResult := fun _ => .ok wPage

/-- Fixture: an adapter whose fetch always raises. -/
def wFailNav : String → FetchResult := fun _ => .fetchError "Mock exception"

/-- Fixture: an adapter agreeing with `wNav` on the test URL only. -/
def wNav2 : String → FetchResult :=
  fun u => if u == "https://dude.ron.sh" then .ok wPage else .fetchError "other"

/-- Fixture: a sink reporting success. -/
def wSaveTrue : SaveFn := fun _ _ => true

/-- Fixture: a sink reporting failure. -/
def wSaveFalse : SaveFn := fun _ _ => false

/-- Fixture: a scraper holding the grouped rule and a `custom` sink. -/
def wScraper : Scraper := (register freshScraper wRule).save "custom" wSaveTrue

/-- Fixture: a scraper whose `fail_db` sink reports failure. -/
def wScraperFail : Scraper := (register freshScraper wRule).save "fail_db" wSaveFalse

end Dude

open Dude

/-! ### Helper lemmas -/

lemma crawlAll_nil_of_fetchError (rules : List Rule) (pages : Nat)
    (navigate : String → FetchResult) :
    ∀ urls : List String, (∀ u ∈ urls, ∃ msg, navigate u = .fetchError msg) →
      crawlAll rules urls pages navigate = [] := by
  intro urls
  induction urls with
  | nil => intro _; rfl
  | cons u us ih =>
      intro h
      obtain ⟨msg, hm⟩ := h u (by simp)
      have hrest := ih (fun v hv => h v (by simp [hv]))
      simp [crawlAll, crawlUrl, hm, hrest]

lemma crawlAll_congr (rules : List Rule) (pages : Nat)
    (nav1 nav2 : String → FetchResult) :
    ∀ urls : List String, (∀ u ∈ urls, nav1 u = nav2 u) →
      crawlAll rules urls pages nav1 = crawlAll rules urls pages nav2 := by
  intro urls
  induction urls with
  | nil => intro _; rfl
  | cons u us ih =>
      intro h
      have hu := h u (by simp)
      have hrest := ih (fun v hv => h v (by simp [hv]))
      simp [crawlAll, crawlUrl, hu, hrest]

lemma selectAll_rules_length (rs : List Rule) :
    ∀ s : Scraper, (selectAll s rs).rules.length = s.rules.length + rs.length := by
  induction rs with
  | nil => intro s; simp [selectAll]
  | cons r rs ih =>
      intro s
      have step := ih ((Dude.select s r.selector r.group r.priority r.url_pattern
        r.isAsync r.handler).1)
      simp only [selectAll, List.foldl_cons] at step ⊢
      rw [step]
      simp [Dude.select, register]
      omega

/-! ### Claims about the storage dispatcher and the run loop -/

/-- C4: calling `run` with a format string for which no save function is
registered raises a KeyError-style lookup error, before any save attempt
(the resolved save function is never invoked). -/
theorem run_unregistered_format_key_error (s : Scraper) (urls : List String)
    (pages : Nat) (format : String) (output : Option String)
    (navigate : String → FetchResult)
    (h : lookupSave s.saveFns (resolveFormat format output) = none) :
    run s urls pages format output navigate
      = ⟨[], some (.keyError (resolveFormat format output))⟩ := by
  simp [run, h]

/-- C4 witness: a scraper with only the built-in formats, run with format
`custom`, raises the lookup error with no save invocation. -/
theorem run_unregistered_format_key_error_witness :
    run (register freshScraper wRule) ["https://dude.ron.sh"] 2 "custom" none wNav
      = ⟨[], some (.keyError "custom")⟩ :=
  run_unregistered_format_key_error (register freshScraper wRule)
    ["https://dude.ron.sh"] 2 "custom" none wNav rfl

/-- C3: when the resolved save function returns a falsy success flag, `run`
raises the RuntimeError-class save failure after the crawl completed; the
accumulated records are passed to the sink exactly once (no retry, no
partial persistence). -/
theorem run_save_falsy_raises (s : Scraper) (urls : List String) (pages : Nat)
    (format : String) (output : Option String) (navigate : String → FetchResult)
    (f : SaveFn)
    (hf : lookupSave s.saveFns (resolveFormat format output) = some f)
    (hfail : f (crawlAll s.rules urls pages navigate) output = false) :
    run s urls pages format output navigate
      = ⟨[(crawlAll s.rules urls pages navigate, output)], some .saveError⟩ := by
  simp [run, hf, hfail]

/-- C3 witness: the `fail_db` sink returns `False`, so the run over the test
page raises the save error after one save call. -/
theorem run_save_falsy_raises_witness :
    run wScraperFail ["https://dude.ron.sh"] 2 defaultFormat
        (some "failing.fail_db") wNav
      = ⟨[(crawlAll wScraperFail.rules ["https://dude.ron.sh"] 2 wNav,
           some "failing.fail_db")], some .saveError⟩ :=
  run_save_falsy_raises wScraperFail ["https://dude.ron.sh"] 2 defaultFormat
    (some "failing.fail_db") wNav wSaveFalse rfl rfl

/-- C2: a fetch exception during navigation is caught: the failing page
contributes zero records, `run` completes normally, and the registered save
function is still invoked — with `[]` when every page failed. -/
theorem run_fetch_error_completes (s : Scraper) (urls : List String)
    (pages : Nat) (format : String) (output : Option String)
    (navigate : String → FetchResult) (f : SaveFn)
    (hfail : ∀ u ∈ urls, ∃ msg, navigate u = .fetchError msg)
    (hf : lookupSave s.saveFns (resolveFormat format output) = some f)
    (hsave : f [] output = true) :
    (∀ u, (∃ msg, navigate u = .fetchError msg) →
        crawlUrl s.rules pages navigate u = []) ∧
    run s urls pages format output navigate = ⟨[([], output)], none⟩ := by
  constructor
  · rintro u ⟨msg, hm⟩
    simp [crawlUrl, hm]
  · have hc := crawlAll_nil_of_fetchError s.rules pages navigate urls hfail
    simp [run, hc, hf, hsave]

/-- C2 witness: every fetch raises, so the run completes with the save
function invoked on the empty list. -/
theorem run_fetch_error_completes_witness :
    (∀ u, (∃ msg, wFailNav u = .fetchError msg) →
        crawlUrl wScraper.rules 2 wFailNav u = []) ∧
    run wScraper ["https://dude.ron.sh"] 2 "custom" none wFailNav
      = ⟨[([], none)], none⟩ :=
  run_fetch_error_completes wScraper ["https://dude.ron.sh"] 2 "custom" none
    wFailNav wSaveTrue
    (fun _ _ => ⟨"Mock exception", rfl⟩) rfl rfl

/-- C9: two parser backends whose navigation capability returns the same
pages for the crawled URLs drive `run` to the same outcome — in particular
the record lists passed to the registered save function are equal element
for element. -/
theorem parser_backends_equivalent (s : Scraper) (urls : List String)
    (pages : Nat) (format : String) (output : Option String)
    (nav1 nav2 : String → FetchResult)
    (h : ∀ u ∈ urls, nav1 u = nav2 u) :
    run s urls pages format output nav1 = run s urls pages format output nav2 := by
  have hc := crawlAll_congr s.rules pages nav1 nav2 urls h
  simp [run, hc]

/-- C9 witness: a playwright-style always-resolving adapter and a bs4-style
adapter that only resolves the test URL agree there, so the runs coincide. -/
theorem parser_backends_equivalent_witness :
    run wScraper ["https://dude.ron.sh"] 2 "custom" none wNav
      = run wScraper ["https://dude.ron.sh"] 2 "custom" none wNav2 :=
  parser_backends_equivalent wScraper ["https://dude.ron.sh"] 2 "custom" none
    wNav wNav2
    (by intro u hu; simp only [List.mem_singleton] at hu; subst hu; rfl)

/-- C10: with an output path and no explicit format, the save function is
resolved from the path's file extension — `output.json` resolves to `json`,
`failing.fail_db` to the sink registered under `fail_db` — and `run`
dispatches to the function registered under that extension. -/
theorem output_extension_resolves_save (s : Scraper) (urls : List String)
    (pages : Nat) (format : String) (path : String)
    (navigate : String → FetchResult) (f : SaveFn)
    (h : lookupSave s.saveFns (extOf path) = some f) :
    extOf "output.json" = "json" ∧ extOf "failing.fail_db" = "fail_db" ∧
    run s urls pages format (some path) navigate
      = ⟨[(crawlAll s.rules urls pages navigate, some path)],
         if f (crawlAll s.rules urls pages navigate) (some path) then none
         else some .saveError⟩ := by
  refine ⟨rfl, rfl, ?_⟩
  have hres : resolveFormat format (some path) = extOf path := rfl
  by_cases hb : f (crawlAll s.rules urls pages navigate) (some path) = true
  · simp [run, hres, h, hb]
  · simp only [Bool.not_eq_true] at hb
    simp [run, hres, h, hb]

/-- C10 witness: `failing.fail_db` dispatches to the sink registered under
`fail_db`, which fails, so the run raises the save error. -/
theorem output_extension_resolves_save_witness :
    extOf "output.json" = "json" ∧ extOf "failing.fail_db" = "fail_db" ∧
    run wScraperFail ["https://dude.ron.sh"] 1 defaultFormat
        (some "failing.fail_db") wNav
      = ⟨[(crawlAll wScraperFail.rules ["https://dude.ron.sh"] 1 wNav,
           some "failing.fail_db")],
         if wSaveFalse (crawlAll wScraperFail.rules ["https://dude.ron.sh"] 1 wNav)
             (some "failing.fail_db") then none
         else some .saveError⟩ :=
  output_extension_resolves_save wScraperFail ["https://dude.ron.sh"] 1
    defaultFormat "failing.fail_db" wNav wSaveFalse rfl

/-! ### Claims about the rule registry -/

/-- C7: after registration the registry's rules list has length equal to the
number of select-decorated handlers registered — each `register` call
appends exactly one rule, with no deduplication. -/
theorem rules_length_equals_registered (rs : List Rule) :
    (selectAll freshScraper rs).rules.length = rs.length ∧
    ∀ (s : Scraper) (r : Rule), (register s r).rules = s.rules ++ [r] := by
  constructor
  · have h := selectAll_rules_length rs freshScraper
    simpa [freshScraper] using h
  · intro s r; rfl

/-- C8: applying the group decorator over a handler already registered by
`select` conflicts with the prior grouping structure and raises
ConfigurationError at registration time, before any run is started. -/
theorem group_over_selected_configuration_error (s : Scraper) (selector : String)
    (group : Option String) (priority : Int) (url_pattern : Option String)
    (isAsync : Bool) (g2 : Option String)
    (h : Element → List (String × Value)) :
    groupDecorate g2 (Dude.select s selector group priority url_pattern isAsync h).2
      = .error .configurationError := rfl

/-! ### Structural lemmas about the emitted records -/

lemma lookup_mkRecord_page_number (n : Nat) (url : String) (gid gidx eidx : Nat)
    (u : List (String × Value)) :
    lookupKey (mkRecord n url gid gidx eidx u) "_page_number"
      = some (Value.vInt (n : Int)) := rfl

lemma lookup_mkRecord_page_url (n : Nat) (url : String) (gid gidx eidx : Nat)
    (u : List (String × Value)) :
    lookupKey (mkRecord n url gid gidx eidx u) "_page_url"
      = some (Value.vStr url) := rfl

lemma lookup_mkRecord_group_id (n : Nat) (url : String) (gid gidx eidx : Nat)
    (u : List (String × Value)) :
    lookupKey (mkRecord n url gid gidx eidx u) "_group_id"
      = some (Value.vInt (gid : Int)) := rfl

lemma lookup_mkRecord_group_index (n : Nat) (url : String) (gid gidx eidx : Nat)
    (u : List (String × Value)) :
    lookupKey (mkRecord n url gid gidx eidx u) "_group_index"
      = some (Value.vInt (gidx : Int)) := rfl

lemma lookup_mkRecord_element_index (n : Nat) (url : String) (gid gidx eidx : Nat)
    (u : List (String × Value)) :
    lookupKey (mkRecord n url gid gidx eidx u) "_element_index"
      = some (Value.vInt (eidx : Int)) := rfl

lemma mem_bucketRecords {h : Element → List (String × Value)} {n : Nat}
    {url : String} {gid : Nat} {rec : Record} :
    ∀ {xs : List (Nat × Element)} {gidx : Nat},
      rec ∈ bucketRecords h n url gid gidx xs →
      ∃ gi ei u, rec = mkRecord n url gid gi ei u := by
  intro xs
  induction xs with
  | nil => intro gidx hm; simp [bucketRecords] at hm
  | cons x xs ih =>
      intro gidx hm
      simp only [bucketRecords, List.mem_append] at hm
      rcases hm with hm | hm
      · cases hx : h x.2 with
        | nil => rw [hx] at hm; simp at hm
        | cons a as =>
            rw [hx] at hm
            simp only [List.mem_singleton] at hm
            exact ⟨gidx, x.1, a :: as, hm⟩
      · exact ih hm

lemma mem_recordsOfBuckets {h : Element → List (String × Value)} {n : Nat}
    {url : String} {rec : Record} :
    ∀ {bs : List (Nat × List (Nat × Element))} {gid : Nat},
      rec ∈ recordsOfBuckets h n url gid bs →
      ∃ g gi ei u, rec = mkRecord n url g gi ei u := by
  intro bs
  induction bs with
  | nil => intro gid hm; simp [recordsOfBuckets] at hm
  | cons b bs ih =>
      intro gid hm
      simp only [recordsOfBuckets, List.mem_append] at hm
      rcases hm with hm | hm
      · obtain ⟨gi, ei, u, hu⟩ := mem_bucketRecords hm
        exact ⟨gid, gi, ei, u, hu⟩
      · exact ih hm

lemma mem_extractRule {gid0 n : Nat} {url : String} {r : Rule}
    {elems : List Element} {rec : Record}
    (hm : rec ∈ (extractRule gid0 n url r elems).1) :
    ∃ g gi ei u, rec = mkRecord n url g gi ei u := by
  simp only [extractRule] at hm
  exact mem_recordsOfBuckets hm

lemma mem_extractRules {n : Nat} {url : String} {rec : Record} :
    ∀ {rs : List Rule} {gid0 : Nat} {q : String → List Element},
      rec ∈ extractRules rs gid0 n url q →
      ∃ g gi ei u, rec = mkRecord n url g gi ei u := by
  intro rs
  induction rs with
  | nil => intro gid0 q hm; simp [extractRules] at hm
  | cons r rs ih =>
      intro gid0 q hm
      simp only [extractRules, List.mem_append] at hm
      rcases hm with hm | hm
      · exact mem_extractRule hm
      · exact ih hm

lemma mem_extractPage {rules : List Rule} {n : Nat} {p : PageHandle} {rec : Record}
    (hm : rec ∈ extractPage rules n p) :
    ∃ g gi ei u, rec = mkRecord n p.url g gi ei u := by
  simp only [extractPage] at hm
  exact mem_extractRules hm

lemma mem_crawlPages {rules : List Rule} {rec : Record} :
    ∀ {k n : Nat} {p : PageHandle},
      rec ∈ crawlPages rules k n p →
      ∃ m, n ≤ m ∧ ∃ url g gi ei u, rec = mkRecord m url g gi ei u := by
  intro k
  induction k with
  | zero => intro n p hm; simp [crawlPages] at hm
  | succ k ih =>
      intro n p hm
      simp only [crawlPages, List.mem_append] at hm
      rcases hm with hm | hm
      · obtain ⟨g, gi, ei, u, hu⟩ := mem_extractPage hm
        exact ⟨n, le_refl n, p.url, g, gi, ei, u, hu⟩
      · cases hnx : p.next with
        | none => rw [hnx] at hm; simp at hm
        | some q =>
            rw [hnx] at hm
            obtain ⟨m, hmn, rest⟩ := ih hm
            exact ⟨m, by omega, rest⟩

lemma mem_crawlAll {rules : List Rule} {pages : Nat}
    {navigate : String → FetchResult} {rec : Record} :
    ∀ {urls : List String},
      rec ∈ crawlAll rules urls pages navigate →
      ∃ m, 1 ≤ m ∧ ∃ url g gi ei u, rec = mkRecord m url g gi ei u := by
  intro urls
  induction urls with
  | nil => intro hm; simp [crawlAll] at hm
  | cons u us ih =>
      intro hm
      simp only [crawlAll, List.mem_append] at hm
      rcases hm with hm | hm
      · simp only [crawlUrl] at hm
        cases hnav : navigate u with
        | fetchError msg => rw [hnav] at hm; simp at hm
        | ok p =>
            rw [hnav] at hm
            exact mem_crawlPages hm
      · exact ih hm

lemma run_calls_records (s : Scraper) (urls : List String) (pages : Nat)
    (format : String) (output : Option String) (navigate : String → FetchResult)
    (c : List Record × Option String)
    (hc : c ∈ (run s urls pages format output navigate).calls) :
    c = (crawlAll s.rules urls pages navigate, output) := by
  simp only [run] at hc
  cases hf : lookupSave s.saveFns (resolveFormat format output) with
  | none => rw [hf] at hc; simp at hc
  | some f =>
      rw [hf] at hc
      by_cases hb : f (crawlAll s.rules urls pages navigate) output = true
      · simp only [hb, if_true, List.mem_singleton] at hc
        exact hc
      · simp only [Bool.not_eq_true] at hb
        simp only [hb, Bool.false_eq_true, if_false, List.mem_singleton] at hc
        exact hc

/-- C5: every record produced by a run is a flat mapping assembled by
`mkRecord`: the five reserved provenance keys are present, `_page_number`
is the 1-based page number, `_page_url` is the page's URL, and the
handler's returned mapping is merged in. -/
theorem records_contain_reserved_keys (s : Scraper) (urls : List String)
    (pages : Nat) (format : String) (output : Option String)
    (navigate : String → FetchResult)
    (c : List Record × Option String) (rec : Record)
    (hc : c ∈ (run s urls pages format output navigate).calls)
    (hrec : rec ∈ c.1) :
    ∃ m url gid gidx eidx user, 1 ≤ m ∧
      rec = mkRecord m url gid gidx eidx user ∧
      lookupKey rec "_page_number" = some (Value.vInt (m : Int)) ∧
      lookupKey rec "_page_url" = some (Value.vStr url) ∧
      ∀ k ∈ reservedKeys, (lookupKey rec k).isSome = true := by
  have hceq := run_calls_records s urls pages format output navigate c hc
  rw [hceq] at hrec
  obtain ⟨m, hm1, url, g, gi, ei, u, hrec_eq⟩ := mem_crawlAll hrec
  refine ⟨m, url, g, gi, ei, u, hm1, hrec_eq, ?_, ?_, ?_⟩
  · rw [hrec_eq]; exact lookup_mkRecord_page_number m url g gi ei u
  · rw [hrec_eq]; exact lookup_mkRecord_page_url m url g gi ei u
  · intro k hk
    rw [hrec_eq]
    simp only [reservedKeys, List.mem_cons, List.mem_singleton] at hk
    rcases hk with rfl | rfl | rfl | rfl | rfl | hk
    · rfl
    · rfl
    · rfl
    · rfl
    · rfl
    · simp at hk

/-- C5 witness: the first record of the test run is reserved-key complete. -/
theorem records_contain_reserved_keys_witness :
    ∃ m url gid gidx eidx user, 1 ≤ m ∧
      mkRecord 1 "https://dude.ron.sh" 0 0 0 [("title", Value.vStr "Title 1")]
        = mkRecord m url gid gidx eidx user ∧
      lookupKey (mkRecord 1 "https://dude.ron.sh" 0 0 0
          [("title", Value.vStr "Title 1")]) "_page_number"
        = some (Value.vInt (m : Int)) ∧
      lookupKey (mkRecord 1 "https://dude.ron.sh" 0 0 0
          [("title", Value.vStr "Title 1")]) "_page_url"
        = some (Value.vStr url) ∧
      ∀ k ∈ reservedKeys,
        (lookupKey (mkRecord 1 "https://dude.ron.sh" 0 0 0
          [("title", Value.vStr "Title 1")]) k).isSome = true :=
  records_contain_reserved_keys wScraper ["https://dude.ron.sh"] 1 "custom" none
    wNav (crawlAll wScraper.rules ["https://dude.ron.sh"] 1 wNav, none)
    (mkRecord 1 "https://dude.ron.sh" 0 0 0 [("title", Value.vStr "Title 1")])
    (by decide) (by decide)

/-- C6: when the adapter reports no next-page capability, pagination for
that URL stops after the current page: with any page limit of at least 1,
the crawl of a next-less page is exactly that page's extraction, and every
emitted record carries `_page_number` equal to 1. -/
theorem pagination_stops_when_no_next_page (rules : List Rule) (N : Nat)
    (p : PageHandle) (hN : 1 ≤ N) (hnext : p.next = none) :
    crawlPages rules N 1 p = extractPage rules 1 p ∧
    ∀ rec ∈ crawlPages rules N 1 p,
      lookupKey rec "_page_number" = some (Value.vInt 1) := by
  obtain ⟨k, rfl⟩ : ∃ k, N = k + 1 := ⟨N - 1, by omega⟩
  have h1 : crawlPages rules (k + 1) 1 p = extractPage rules 1 p := by
    simp [crawlPages, hnext]
  refine ⟨h1, ?_⟩
  intro rec hrec
  rw [h1] at hrec
  obtain ⟨g, gi, ei, u, hrec_eq⟩ := mem_extractPage hrec
  rw [hrec_eq]
  exact lookup_mkRecord_page_number 1 p.url g gi ei u

/-- C6 witness: running with pages = 2 against the test page (which has no
next page) stops at page 1 and stamps every record with page number 1. -/
theorem pagination_stops_when_no_next_page_witness :
    crawlPages [wRule] 2 1 wPage = extractPage [wRule] 1 wPage ∧
    ∀ rec ∈ crawlPages [wRule] 2 1 wPage,
      lookupKey rec "_page_number" = some (Value.vInt 1) :=
  pagination_stops_when_no_next_page [wRule] 2 wPage (by decide) rfl

/-! ### Group-stamp lemmas for grouped rules -/

lemma pairsOf_append (a b : List Record) :
    pairsOf (a ++ b) = pairsOf a ++ pairsOf b := by
  simp [pairsOf]

lemma mem_of_mem_dedupAux {a : Nat} :
    ∀ {l : List Nat} {seen : List Nat}, a ∈ dedupAux seen l → a ∈ l := by
  intro l
  induction l with
  | nil => intro seen hm; simp [dedupAux] at hm
  | cons k ks ih =>
      intro seen hm
      simp only [dedupAux] at hm
      by_cases hk : seen.contains k = true
      · rw [if_pos hk] at hm
        exact List.mem_cons_of_mem _ (ih hm)
      · rw [if_neg hk] at hm
        rcases List.mem_cons.mp hm with rfl | hm
        · exact List.mem_cons_self _ _
        · exact List.mem_cons_of_mem _ (ih hm)

lemma mem_of_mem_dedupKeys {a : Nat} {l : List Nat} (hm : a ∈ dedupKeys l) :
    a ∈ l :=
  mem_of_mem_dedupAux hm

lemma bucketize_sizes_pos {xs : List (Nat × Element)}
    {b : Nat × List (Nat × Element)} (hb : b ∈ bucketize xs) :
    0 < b.2.length := by
  simp only [bucketize] at hb
  obtain ⟨k, hk, hkb⟩ := List.mem_map.mp hb
  have hk2 : k ∈ xs.map (fun x => x.2.groupKey) := mem_of_mem_dedupKeys hk
  obtain ⟨x, hx, hxk⟩ := List.mem_map.mp hk2
  have hxf : x ∈ xs.filter (fun x => x.2.groupKey == k) := by
    simp [List.mem_filter, hx, hxk]
  have hne : xs.filter (fun x => x.2.groupKey == k) ≠ [] :=
    List.ne_nil_of_mem hxf
  rw [← hkb]
  simpa [List.length_pos] using hne

lemma bucketize_mem {xs : List (Nat × Element)}
    {b : Nat × List (Nat × Element)} {x : Nat × Element}
    (hb : b ∈ bucketize xs) (hx : x ∈ b.2) : x ∈ xs := by
  simp only [bucketize] at hb
  obtain ⟨k, _, hkb⟩ := List.mem_map.mp hb
  rw [← hkb] at hx
  exact List.mem_of_mem_filter hx

lemma indexed_mem {x : Nat × Element} :
    ∀ {es : List Element} {i : Nat}, x ∈ indexed i es → x.2 ∈ es := by
  intro es
  induction es with
  | nil => intro i hm; simp [indexed] at hm
  | cons e es ih =>
      intro i hm
      simp only [indexed] at hm
      rcases List.mem_cons.mp hm with rfl | hm
      · exact List.mem_cons_self _ _
      · exact List.mem_cons_of_mem _ (ih hm)

lemma bucketRecords_pairs (h : Element → List (String × Value)) (n : Nat)
    (url : String) (gid : Nat) :
    ∀ (xs : List (Nat × Element)) (gidx : Nat),
      (∀ x ∈ xs, h x.2 ≠ []) →
      pairsOf (bucketRecords h n url gid gidx xs)
        = indexPairs gid gidx xs.length := by
  intro xs
  induction xs with
  | nil => intro gidx _; rfl
  | cons x xs ih =>
      intro gidx hne
      have hx : h x.2 ≠ [] := hne x (List.mem_cons_self _ _)
      cases hh : h x.2 with
      | nil => exact absurd hh hx
      | cons a as =>
          simp only [bucketRecords, hh]
          rw [pairsOf_append]
          have hrest := ih (gidx + 1) (fun y hy => hne y (List.mem_cons_of_mem _ hy))
          rw [hrest]
          simp only [List.length_cons, indexPairs, pairsOf, List.map_cons,
            List.map_nil, lookup_mkRecord_group_id, lookup_mkRecord_group_index]
          rfl

lemma recordsOfBuckets_pairs (h : Element → List (String × Value)) (n : Nat)
    (url : String) :
    ∀ (bs : List (Nat × List (Nat × Element))) (gid : Nat),
      (∀ b ∈ bs, ∀ x ∈ b.2, h x.2 ≠ []) →
      pairsOf (recordsOfBuckets h n url gid bs)
        = canonicalPairs gid (bs.map (fun b => b.2.length)) := by
  intro bs
  induction bs with
  | nil => intro gid _; rfl
  | cons b bs ih =>
      intro gid hne
      simp only [recordsOfBuckets, List.map_cons, canonicalPairs]
      rw [pairsOf_append]
      rw [bucketRecords_pairs h n url gid b.2 0 (hne b (List.mem_cons_self _ _))]
      rw [ih (gid + 1) (fun b2 hb2 => hne b2 (List.mem_cons_of_mem _ hb2))]

/-- C1: for a page scraped with a grouped rule whose handler emits a record
for every matched element, the emitted `_group_id` values are the bucket
ordinals — increasing by one per distinct group starting at 0 — and within
each group `_group_index` restarts at 0 and counts the element's position
inside its bucket (`canonicalPairs 0`). -/
theorem grouped_rule_group_ids_canonical (r : Rule) (g : String) (n : Nat)
    (p : PageHandle) (hg : r.group = some g)
    (hmatch : urlMatches r.url_pattern p.url = true)
    (hh : ∀ e ∈ p.query r.selector, r.handler e ≠ []) :
    ∃ sizes : List Nat, (∀ sz ∈ sizes, 0 < sz) ∧
      pairsOf (extractPage [r] n p) = canonicalPairs 0 sizes := by
  refine ⟨(bucketize (indexed 0 (p.query r.selector))).map (fun b => b.2.length),
    ?_, ?_⟩
  · intro sz hsz
    obtain ⟨b, hb, hbl⟩ := List.mem_map.mp hsz
    rw [← hbl]
    exact bucketize_sizes_pos hb
  · have hfilter : [r].filter (fun r2 => urlMatches r2.url_pattern p.url) = [r] := by
      simp [List.filter, hmatch]
    simp only [extractPage, hfilter]
    have horder : orderRules [r] = [r] := rfl
    rw [horder]
    simp only [extractRules, List.append_nil, extractRule, hg]
    exact recordsOfBuckets_pairs r.handler n p.url _ 0
      (fun b hb x hx => hh x.2 (indexed_mem (bucketize_mem hb hx)))

/-- C1 witness: the test page's three elements fall into two buckets of
sizes 2 and 1, with canonical group stamps. -/
theorem grouped_rule_group_ids_canonical_witness :
    ∃ sizes : List Nat, (∀ sz ∈ sizes, 0 < sz) ∧
      pairsOf (extractPage [wRule] 1 wPage) = canonicalPairs 0 sizes :=
  grouped_rule_group_ids_canonical wRule "g" 1 wPage rfl rfl
    (by intro e _; simp [wRule, wHandler])
